import Mathlib

/-!
# In-memory response-time percentile store: a shallow embedding

This file embeds the two Go implementations of the response-time service:

* the cache-based service (`Service`, from the file defining `sortedCache`
  and `cacheValid`): an append-only measurement log together with a
  lazily-rebuilt ascending-sorted cache of durations and a validity flag;
* the sort-on-every-query service (`SimpleService`, from
  `internal/response_time/service.go`): the same log, with each percentile
  query sorting a fresh copy of the durations.

Durations are Go `int64` (`time.Duration`) values, embedded as `Int`;
timestamps (`time.Time`) are embedded as `Int` and carried but never read.
The Go `percentile float64` argument is embedded as a rational `ℚ`, and the
rank-index expression `int((percentile/100.0)*float64(n)) - 1` is embedded
twice: `rankIdx` idealizes it with exact rational arithmetic, while
`rankIdxF` (used by `Service.getResponseTimeF`) models the two IEEE binary64
roundings the machine performs, via `fl`, round-to-nearest-even at 53-bit
precision. The two indices differ at some inputs (for example percentile 29
over 100 entries), which is exactly the divergence between the exact
clamp/floor specification formula and the program. Go's `int(x)` conversion
(truncation toward zero) is `goInt`, and `sort.Slice` with the `<`
comparator on `int64` produces the unique ascending reordering of the
values, embedded as `List.insertionSort (· ≤ ·)`.
-/

namespace InMemoryService

/-- A single HTTP response-time measurement: the arrival timestamp and the
duration the request took (Go `time.Duration`, an `int64`). -/
structure ResponseTimeEntry where
  timestamp : Int
  duration : Int
deriving Repr, DecidableEq

/-- The two error values `GetResponseTime` can return:
`"no data available"` and `"percentile must be between 0 and 100"`. -/
inductive SvcError where
  | noData
  | invalidPercentile
deriving Repr, DecidableEq

/-- Go's `int(x)` conversion of a float: truncation toward zero. -/
def goInt (x : ℚ) : Int :=
  if 0 ≤ x then ⌊x⌋ else ⌈x⌉

/-- The duration values of a measurement list, in insertion order
(the loop `for i, entry := range data { out[i] = int64(entry.Duration) }`). -/
def durationsOf (data : List ResponseTimeEntry) : List Int :=
  data.map (·.duration)

/-- Ascending sort of duration values
(`sort.Slice(ds, func(i, j int) bool { return ds[i] < ds[j] })`). -/
def sortInt (l : List Int) : List Int :=
  l.insertionSort (· ≤ ·)

/-- The nearest-rank index computation shared verbatim by both services:
`idx := int((percentile/100.0)*float64(n)) - 1`, then
`if idx < 0 { idx = 0 }`, then `if idx >= n { idx = n - 1 }` — here with the
float product idealized as exact rational arithmetic (see `rankIdxF` for
the bit-accurate version with IEEE binary64 rounding). -/
def rankIdx (percentile : ℚ) (n : Nat) : Int :=
  let idx := goInt (percentile / 100 * n) - 1
  let idx := if idx < 0 then 0 else idx
  if idx ≥ n then n - 1 else idx

/-- Round a rational to the nearest integer, ties to even. -/
def roundEven (x : ℚ) : ℤ :=
  if x - ⌊x⌋ < 1/2 then ⌊x⌋
  else if x - ⌊x⌋ > 1/2 then ⌊x⌋ + 1
  else if ⌊x⌋ % 2 = 0 then ⌊x⌋ else ⌊x⌋ + 1

/-- Round a rational to the nearest IEEE binary64 value: round to nearest
with ties to even at 53 significant bits. Overflow and subnormal underflow
are not modelled; every value flowing through the percentile computation
(`0 ≤ p ≤ 100`, feasible entry counts) stays far inside the normal range,
where this is exact IEEE-754 semantics. Negative inputs mirror positive
ones, as IEEE rounding is sign-symmetric. -/
def fl (x : ℚ) : ℚ :=
  if x = 0 then 0
  else if 0 < x then
    roundEven (x * 2 ^ ((52:ℤ) - Int.log 2 x)) * (2:ℚ) ^ (Int.log 2 x - 52)
  else
    -(roundEven (-x * 2 ^ ((52:ℤ) - Int.log 2 (-x))) *
      (2:ℚ) ^ (Int.log 2 (-x) - 52))

/-- The nearest-rank index exactly as the machine computes it:
`idx := int((percentile/100.0)*float64(n)) - 1` with the division and the
multiplication each rounded to binary64 (`float64(n)` is exact for every
feasible entry count, `n < 2^53`), then the two clamps. -/
def rankIdxF (percentile : ℚ) (n : Nat) : Int :=
  let idx := goInt (fl (fl (percentile / 100) * n)) - 1
  let idx := if idx < 0 then 0 else idx
  if idx ≥ n then n - 1 else idx

/-! ## The sort-on-every-query service (`internal/response_time/service.go`) -/

/-- State of the simple service: just the append-only entry log. -/
structure SimpleService where
  data : List ResponseTimeEntry
deriving Repr, DecidableEq

/-- `NewService` of the simple service: an empty log. -/
def SimpleService.new : SimpleService := ⟨[]⟩

/-- `StoreResponseTime`: append an entry; the Go function always returns
`nil` as its error, so the embedding returns only the new state. -/
def SimpleService.storeResponseTime (s : SimpleService) (ts dur : Int) :
    SimpleService :=
  ⟨s.data ++ [⟨ts, dur⟩]⟩

/-- `GetResponseTime` of the simple service: fail with `noData` on an empty
log, then with `invalidPercentile` when `percentile` is out of `[0, 100]`;
otherwise sort a fresh copy of the durations and return the value at the
clamped nearest-rank index. -/
def SimpleService.getResponseTime (s : SimpleService) (percentile : ℚ) :
    Except SvcError Int :=
  if s.data.length = 0 then
    .error .noData
  else if percentile < 0 ∨ percentile > 100 then
    .error .invalidPercentile
  else
    let durations := sortInt (durationsOf s.data)
    .ok (durations.getD (rankIdx percentile durations.length).toNat 0)

/-! ## The cache-based service -/

/-- State of the cache-based service: the entry log, the sorted duration
cache, and the cache-validity flag. -/
structure Service where
  data : List ResponseTimeEntry
  sortedCache : List Int
  cacheValid : Bool
deriving Repr, DecidableEq

/-- `NewService` of the cached service: empty log, empty cache, and
`cacheValid: true`. -/
def Service.new : Service :=
  { data := [], sortedCache := [], cacheValid := true }

/-- `StoreResponseTime`: append the entry and invalidate the cache; the Go
function always returns `nil` as its error. -/
def Service.storeResponseTime (s : Service) (ts dur : Int) : Service :=
  { s with data := s.data ++ [⟨ts, dur⟩], cacheValid := false }

/-- `rebuildCache`: recompute the cache as the ascending sort of the current
durations and mark it valid. -/
def Service.rebuildCache (s : Service) : Service :=
  { s with sortedCache := sortInt (durationsOf s.data), cacheValid := true }

/-- `GetResponseTime` of the cached service: the same error checks as the
simple service; then rebuild the cache if it is invalid (`t` is the service
state after the optional rebuild), and answer from the cache at the clamped
nearest-rank index computed from the cache length. Returns the result
together with the post-call state. -/
def Service.getResponseTime (s : Service) (percentile : ℚ) :
    Except SvcError Int × Service :=
  if s.data.length = 0 then
    (.error .noData, s)
  else if percentile < 0 ∨ percentile > 100 then
    (.error .invalidPercentile, s)
  else
    let t := if s.cacheValid then s else s.rebuildCache
    (.ok (t.sortedCache.getD (rankIdx percentile t.sortedCache.length).toNat 0),
      t)

/-- `GetResponseTime` of the cached service with the rank index computed in
IEEE binary64 arithmetic (`rankIdxF`), exactly as the Go program executes
it; `Service.getResponseTime` is the same code with the float product
idealized as an exact rational. -/
def Service.getResponseTimeF (s : Service) (percentile : ℚ) :
    Except SvcError Int × Service :=
  if s.data.length = 0 then
    (.error .noData, s)
  else if percentile < 0 ∨ percentile > 100 then
    (.error .invalidPercentile, s)
  else
    let t := if s.cacheValid then s else s.rebuildCache
    (.ok (t.sortedCache.getD (rankIdxF percentile t.sortedCache.length).toNat 0),
      t)

/-- The `map[string]interface{}` returned by `GetStats`. -/
structure Stats where
  totalEntries : Nat
  cacheValid : Bool
  cacheSize : Nat
deriving Repr, DecidableEq

/-- `GetStats`: read the entry count, the validity flag and the cache length;
the state is untouched. -/
def Service.getStats (s : Service) : Stats × Service :=
  ({ totalEntries := s.data.length, cacheValid := s.cacheValid,
     cacheSize := s.sortedCache.length }, s)

/-- Store a whole list of `(timestamp, duration)` pairs in order. -/
def Service.storeAll (s : Service) (l : List (Int × Int)) : Service :=
  l.foldl (fun s td => s.storeResponseTime td.1 td.2) s

/-- One hundred entries with durations 1, 2, …, 100 — large enough for the
IEEE-rounded rank index to part ways with the exact floor formula. -/
def ramp100 : List (Int × Int) :=
  (List.range 100).map fun i => ((i : Int), (i : Int) + 1)

/-- States of the cached service reachable from `NewService` by sequences of
`StoreResponseTime`, `GetResponseTime` and `GetStats` calls. -/
inductive Reachable : Service → Prop
  | init : Reachable Service.new
  | store {s : Service} (ts dur : Int) :
      Reachable s → Reachable (s.storeResponseTime ts dur)
  | query {s : Service} (p : ℚ) :
      Reachable s → Reachable (s.getResponseTime p).2
  | stats {s : Service} :
      Reachable s → Reachable s.getStats.2

/-- One client-visible operation of the sequential API shared by the two
implementations. -/
inductive Op where
  | store (ts dur : Int)
  | query (p : ℚ)

/-- Run a sequence of operations on the cached service, recording each
query's result (`none` marks a store, which has no client-visible output). -/
def Service.runTrace : Service → List Op → List (Option (Except SvcError Int))
  | _, [] => []
  | s, .store ts dur :: ops => none :: (s.storeResponseTime ts dur).runTrace ops
  | s, .query p :: ops =>
      some (s.getResponseTime p).1 :: (s.getResponseTime p).2.runTrace ops

/-- Run a sequence of operations on the simple service, recording each
query's result. -/
def SimpleService.runTrace :
    SimpleService → List Op → List (Option (Except SvcError Int))
  | _, [] => []
  | t, .store ts dur :: ops => none :: (t.storeResponseTime ts dur).runTrace ops
  | t, .query p :: ops => some (t.getResponseTime p) :: t.runTrace ops

/-- The cache-consistency invariant: whenever the validity flag is set, the
cache is the ascending sort of the durations currently in the log. -/
def CacheInv (s : Service) : Prop :=
  s.cacheValid = true → s.sortedCache = sortInt (durationsOf s.data)

/-! ## Basic lemmas about sorting and the rank index -/

lemma sortInt_sorted (l : List Int) : (sortInt l).Sorted (· ≤ ·) :=
  List.sorted_insertionSort _ l

lemma sortInt_perm (l : List Int) : List.Perm (sortInt l) l :=
  List.perm_insertionSort _ l

lemma sortInt_length (l : List Int) : (sortInt l).length = l.length :=
  (sortInt_perm l).length_eq

lemma durationsOf_length (data : List ResponseTimeEntry) :
    (durationsOf data).length = data.length :=
  List.length_map _ _

lemma goInt_of_nonneg {x : ℚ} (h : 0 ≤ x) : goInt x = ⌊x⌋ := if_pos h

lemma rankIdx_nonneg (p : ℚ) (n : ℕ) (hn : n ≠ 0) : 0 ≤ rankIdx p n := by
  unfold rankIdx
  dsimp only
  split_ifs <;> omega

lemma rankIdx_lt (p : ℚ) (n : ℕ) : rankIdx p n < n := by
  unfold rankIdx
  dsimp only
  split_ifs <;> omega

lemma rankIdx_mono (p1 p2 : ℚ) (n : ℕ) (h0 : 0 ≤ p1) (h12 : p1 ≤ p2) :
    rankIdx p1 n ≤ rankIdx p2 n := by
  have hq : p1 / 100 * n ≤ p2 / 100 * n := by
    have h1 : p1 / 100 ≤ p2 / 100 := by linarith
    exact mul_le_mul_of_nonneg_right h1 (Nat.cast_nonneg n)
  have hx1 : (0 : ℚ) ≤ p1 / 100 * n := by positivity
  have hx2 : (0 : ℚ) ≤ p2 / 100 * n := le_trans hx1 hq
  have hg : goInt (p1 / 100 * n) ≤ goInt (p2 / 100 * n) := by
    rw [goInt_of_nonneg hx1, goInt_of_nonneg hx2]
    exact Int.floor_le_floor hq
  unfold rankIdx
  dsimp only
  split_ifs <;> omega

/-- The machine's sequential clamping (`if idx < 0`, then `if idx >= n`)
written as `clamp(·, 0, n-1)`. -/
lemma rankIdxF_eq_clamp (p : ℚ) (n : ℕ) :
    rankIdxF p n =
      min (max (goInt (fl (fl (p / 100) * n)) - 1) 0) ((n : Int) - 1) := by
  unfold rankIdxF
  dsimp only
  split_ifs <;> omega

/-- `Int.log 2` is characterized by the enclosing binade. -/
lemma int_log_eq (x : ℚ) (e : ℤ) (hx : 0 < x) (h1 : (2:ℚ) ^ e ≤ x)
    (h2 : x < (2:ℚ) ^ (e + 1)) : Int.log 2 x = e := by
  have hA : (2:ℚ) ^ (Int.log 2 x) ≤ x := by
    exact_mod_cast Int.zpow_log_le_self (b := 2) (by norm_num) hx
  have hB : x < (2:ℚ) ^ (Int.log 2 x + 1) := by
    exact_mod_cast Int.lt_zpow_succ_log_self (b := 2) (by norm_num) x
  have h3 : ((2:ℚ)) ^ (Int.log 2 x) < 2 ^ (e + 1) := lt_of_le_of_lt hA h2
  have h4 : ((2:ℚ)) ^ e < 2 ^ (Int.log 2 x + 1) := lt_of_le_of_lt h1 hB
  have h5 : Int.log 2 x < e + 1 :=
    (zpow_lt_zpow_iff_right₀ (by norm_num : (1:ℚ) < 2)).mp h3
  have h6 : e < Int.log 2 x + 1 :=
    (zpow_lt_zpow_iff_right₀ (by norm_num : (1:ℚ) < 2)).mp h4
  omega

/-- Unfold `fl` on a positive input whose binade is known. -/
lemma fl_of_log (x : ℚ) (e : ℤ) (hx : 0 < x) (h1 : (2:ℚ) ^ e ≤ x)
    (h2 : x < (2:ℚ) ^ (e + 1)) :
    fl x = roundEven (x * 2 ^ ((52:ℤ) - e)) * (2:ℚ) ^ (e - 52) := by
  unfold fl
  rw [if_neg (ne_of_gt hx), if_pos hx, int_log_eq x e hx h1 h2]

/-- `29/100` rounds to the binary64 value just below `0.29`
(`0.28999999999999998…`). -/
lemma fl_29_100 : fl (29 / 100 : ℚ) = 5224175567749775 / 2 ^ 54 := by
  rw [fl_of_log (29 / 100) (-2) (by norm_num) (by norm_num) (by norm_num)]
  unfold roundEven
  norm_num

/-- Multiplying that value by `100` rounds to the binary64 value
`28.999999999999996…`, strictly below `29`. -/
lemma fl_29_step2 :
    fl ((5224175567749775 / 2 ^ 54 : ℚ) * 100) = 8162774324609023 / 2 ^ 48 := by
  rw [fl_of_log _ 4 (by norm_num) (by norm_num) (by norm_num)]
  unfold roundEven
  norm_num

/-- `1/2` is exactly representable in binary64. -/
lemma fl_half : fl (1 / 2 : ℚ) = 1 / 2 := by
  rw [fl_of_log (1 / 2) (-1) (by norm_num) (by norm_num) (by norm_num)]
  unfold roundEven
  norm_num

/-- `(1/2) · 3 = 3/2` is exactly representable in binary64. -/
lemma fl_3_2 : fl ((1 / 2 : ℚ) * 3) = 3 / 2 := by
  rw [fl_of_log _ 0 (by norm_num) (by norm_num) (by norm_num)]
  unfold roundEven
  norm_num

/-- With 100 entries, the machine truncates `28.999999999999996` to 28 and
lands on index 27 — one below the exact formula's 28. -/
lemma rankIdxF_29_100 : rankIdxF 29 100 = 27 := by
  unfold rankIdxF goInt
  simp only [Nat.cast_ofNat]
  rw [fl_29_100, fl_29_step2]
  norm_num

/-- With 3 entries and percentile 50, the float computation is exact and
yields index 0. -/
lemma rankIdxF_50_3 : rankIdxF 50 3 = 0 := by
  unfold rankIdxF goInt
  simp only [Nat.cast_ofNat]
  rw [show ((50:ℚ) / 100) = 1 / 2 by norm_num, fl_half, fl_3_2]
  norm_num

lemma getD_mono_of_sorted {l : List Int} (hs : l.Sorted (· ≤ ·)) {i j : ℕ}
    (hij : i ≤ j) (hj : j < l.length) : l.getD i 0 ≤ l.getD j 0 := by
  have hi : i < l.length := lt_of_le_of_lt hij hj
  rw [List.getD_eq_getElem l 0 hi, List.getD_eq_getElem l 0 hj]
  have h := hs.rel_get_of_le (a := ⟨i, hi⟩) (b := ⟨j, hj⟩) (Fin.mk_le_mk.mpr hij)
  simpa using h

/-! ## Lemmas about the cached service's operations -/

lemma storeAll_cons (s : Service) (td : Int × Int) (l : List (Int × Int)) :
    s.storeAll (td :: l) = (s.storeResponseTime td.1 td.2).storeAll l := rfl

lemma storeAll_data (l : List (Int × Int)) (s : Service) :
    (s.storeAll l).data = s.data ++ l.map fun td => ⟨td.1, td.2⟩ := by
  induction l generalizing s with
  | nil => simp [Service.storeAll]
  | cons td l ih =>
      rw [storeAll_cons, ih]
      simp [Service.storeResponseTime]

lemma storeAll_cacheValid : ∀ (l : List (Int × Int)) (s : Service), l ≠ [] →
    (s.storeAll l).cacheValid = false
  | [], _, hl => absurd rfl hl
  | [_], _, _ => rfl
  | td :: td2 :: l, s, _ =>
      storeAll_cacheValid (td2 :: l) (s.storeResponseTime td.1 td.2) (by simp)

lemma getResponseTime_empty (s : Service) (p : ℚ) (h : s.data = []) :
    s.getResponseTime p = (.error .noData, s) := by
  unfold Service.getResponseTime
  rw [if_pos (by simp [h])]

lemma getResponseTime_oor (s : Service) (p : ℚ) (h : s.data ≠ [])
    (hp : p < 0 ∨ p > 100) :
    s.getResponseTime p = (.error .invalidPercentile, s) := by
  unfold Service.getResponseTime
  rw [if_neg (by simpa using h), if_pos hp]

/-- Characterization of a successful cached query from a cache-consistent
state: the answer is the clamped nearest-rank element of the sorted current
durations, and the post-state carries the freshly consistent cache. -/
lemma getResponseTime_of_inv (s : Service) (p : ℚ) (hc : CacheInv s)
    (hne : s.data ≠ []) (hp : ¬(p < 0 ∨ p > 100)) :
    s.getResponseTime p =
      (.ok ((sortInt (durationsOf s.data)).getD
          (rankIdx p s.data.length).toNat 0),
        { s with sortedCache := sortInt (durationsOf s.data),
                 cacheValid := true }) := by
  obtain ⟨data, cache, valid⟩ := s
  unfold Service.getResponseTime
  rw [if_neg (by simpa using hne), if_neg hp]
  cases valid with
  | false => simp [Service.rebuildCache, sortInt_length, durationsOf_length]
  | true =>
      have hcache : cache = sortInt (durationsOf data) := hc rfl
      subst hcache
      simp [sortInt_length, durationsOf_length]

/-- The same characterization for the binary64 variant of the query. -/
lemma getResponseTimeF_of_inv (s : Service) (p : ℚ) (hc : CacheInv s)
    (hne : s.data ≠ []) (hp : ¬(p < 0 ∨ p > 100)) :
    s.getResponseTimeF p =
      (.ok ((sortInt (durationsOf s.data)).getD
          (rankIdxF p s.data.length).toNat 0),
        { s with sortedCache := sortInt (durationsOf s.data),
                 cacheValid := true }) := by
  obtain ⟨data, cache, valid⟩ := s
  unfold Service.getResponseTimeF
  rw [if_neg (by simpa using hne), if_neg hp]
  cases valid with
  | false => simp [Service.rebuildCache, sortInt_length, durationsOf_length]
  | true =>
      have hcache : cache = sortInt (durationsOf data) := hc rfl
      subst hcache
      simp [sortInt_length, durationsOf_length]

lemma getResponseTime_data (s : Service) (p : ℚ) :
    (s.getResponseTime p).2.data = s.data := by
  unfold Service.getResponseTime
  dsimp only
  split_ifs <;> rfl

lemma cacheInv_new : CacheInv Service.new := fun _ => rfl

lemma cacheInv_store (s : Service) (ts dur : Int) :
    CacheInv (s.storeResponseTime ts dur) := fun h => nomatch h

lemma cacheInv_rebuild (s : Service) : CacheInv s.rebuildCache := fun _ => rfl

lemma cacheInv_get (s : Service) (p : ℚ) (hc : CacheInv s) :
    CacheInv (s.getResponseTime p).2 := by
  unfold Service.getResponseTime
  dsimp only
  split_ifs
  · exact hc
  · exact hc
  · exact hc
  · exact cacheInv_rebuild s

lemma reachable_cacheInv {s : Service} (hs : Reachable s) : CacheInv s := by
  induction hs with
  | init => exact cacheInv_new
  | store ts dur _ ih => exact cacheInv_store _ ts dur
  | query p _ ih => exact cacheInv_get _ p ih
  | stats _ ih => exact ih

/-! ## Lemmas about the simple service's operations -/

lemma simple_getResponseTime_empty (t : SimpleService) (p : ℚ)
    (h : t.data = []) : t.getResponseTime p = .error .noData := by
  unfold SimpleService.getResponseTime
  rw [if_pos (by simp [h])]

lemma simple_getResponseTime_oor (t : SimpleService) (p : ℚ)
    (h : t.data ≠ []) (hp : p < 0 ∨ p > 100) :
    t.getResponseTime p = .error .invalidPercentile := by
  unfold SimpleService.getResponseTime
  rw [if_neg (by simpa using h), if_pos hp]

lemma simple_getResponseTime_ok (t : SimpleService) (p : ℚ)
    (h : t.data ≠ []) (hp : ¬(p < 0 ∨ p > 100)) :
    t.getResponseTime p =
      .ok ((sortInt (durationsOf t.data)).getD
        (rankIdx p t.data.length).toNat 0) := by
  unfold SimpleService.getResponseTime
  rw [if_neg (by simpa using h), if_neg hp]
  dsimp only
  rw [sortInt_length, durationsOf_length]

lemma getResponseTime_isOk (s : Service) (p : ℚ)
    (h : s.data ≠ []) (hp : ¬(p < 0 ∨ p > 100)) :
    ∃ d, (s.getResponseTime p).1 = .ok d := by
  unfold Service.getResponseTime
  rw [if_neg (by simpa using h), if_neg hp]
  exact ⟨_, rfl⟩

end InMemoryService

namespace InMemoryService

/-! ## The claims -/

set_option maxRecDepth 10000 in
/-- **C1, counterexample.** The claim asserts the returned duration equals
the element at index `clamp(floor((p/100)·n) − 1, 0, n−1)` of the sorted
durations for every `p ∈ [0, 100]`. With 100 entries of durations 1…100 and
`p = 29`, the machine computes `(29.0/100.0)*100.0 = 28.999999999999996`
(two binary64 roundings), truncates to 28 and answers from index 27 (the
duration 28), while the exact formula gives `⌊29⌋ − 1 = 28` (the duration
29). -/
theorem C1_nearest_rank_counterexample :
    ¬(((Service.new.storeAll ramp100).getResponseTimeF 29).1 =
      .ok ((sortInt (ramp100.map Prod.snd)).getD
        (min (max (⌊(29:ℚ) / 100 * ramp100.length⌋ - 1) 0)
          ((ramp100.length : Int) - 1)).toNat 0)) := by
  have hsort : sortInt (durationsOf (Service.new.storeAll ramp100).data) =
      (List.range 100).map (fun i => (i : Int) + 1) := by decide
  have hlen : (Service.new.storeAll ramp100).data.length = 100 := by decide
  have hL : ((Service.new.storeAll ramp100).getResponseTimeF 29).1 =
      .ok 28 := by
    rw [getResponseTimeF_of_inv _ 29 (fun hv => absurd hv (by decide))
      (by decide) (by norm_num)]
    dsimp only
    rw [hsort, hlen, rankIdxF_29_100]
    rfl
  have hsort2 : sortInt (ramp100.map Prod.snd) =
      (List.range 100).map (fun i => (i : Int) + 1) := by decide
  have hlen2 : ramp100.length = 100 := by decide
  have hR : (.ok ((sortInt (ramp100.map Prod.snd)).getD
        (min (max (⌊(29:ℚ) / 100 * ramp100.length⌋ - 1) 0)
          ((ramp100.length : Int) - 1)).toNat 0) : Except SvcError Int) =
      .ok 29 := by
    rw [hsort2, hlen2]
    have hidx : min (max (⌊(29:ℚ) / 100 * ((100:ℕ) : ℚ)⌋ - 1) 0)
        (((100:ℕ) : Int) - 1) = 28 := by norm_num
    rw [hidx]
    rfl
  intro h
  rw [hL, hR] at h
  simp at h

/-- **C1, amended.** For every sequence of `StoreResponseTime` calls
followed by a `GetResponseTime p` with `0 ≤ p ≤ 100` and at least one entry
recorded, the returned duration equals the element at index
`clamp(int(fl(fl(p/100)·n)) − 1, 0, n−1)` in the ascending-sorted list of
all recorded durations, where `n` is the number of entries at query time
and `fl` is IEEE binary64 round-to-nearest-even — the spec's floor formula
with the machine's double-rounded product in place of the exact product. -/
theorem C1_nearest_rank_float (l : List (Int × Int)) (p : ℚ)
    (hl : l ≠ []) (h0 : 0 ≤ p) (h100 : p ≤ 100) :
    ((Service.new.storeAll l).getResponseTimeF p).1 =
      .ok ((sortInt (l.map Prod.snd)).getD
        (min (max (goInt (fl (fl (p / 100) * l.length)) - 1) 0)
          ((l.length : Int) - 1)).toNat 0) := by
  have hdata : (Service.new.storeAll l).data = l.map fun td => ⟨td.1, td.2⟩ := by
    rw [storeAll_data]
    simp [Service.new]
  have hne : (Service.new.storeAll l).data ≠ [] := by
    rw [hdata]
    simpa using hl
  have hc : CacheInv (Service.new.storeAll l) := by
    intro hv
    rw [storeAll_cacheValid l Service.new hl] at hv
    cases hv
  have hp : ¬(p < 0 ∨ p > 100) := by
    rintro (h | h) <;> linarith
  rw [getResponseTimeF_of_inv _ p hc hne hp]
  have hdur : durationsOf (Service.new.storeAll l).data = l.map Prod.snd := by
    rw [hdata]
    simp [durationsOf]
  have hlen : (Service.new.storeAll l).data.length = l.length := by
    rw [hdata, List.length_map]
  rw [hdur, hlen, rankIdxF_eq_clamp p l.length]

/-- Witness for the amended C1: recording durations 100, 200, 150 and
querying the 50th percentile — where the float arithmetic is exact — picks
rank 0 of [100, 150, 200], namely 100. -/
theorem C1_nearest_rank_float_witness :
    ((Service.new.storeAll [((0:Int), (100:Int)), (1, 200), (2, 150)]).getResponseTimeF
        50).1 = .ok 100 := by
  have h := C1_nearest_rank_float [((0:Int), (100:Int)), (1, 200), (2, 150)]
    50 (by simp) (by norm_num) (by norm_num)
  rw [h]
  have hlen : ([((0:Int), (100:Int)), (1, 200), (2, 150)] :
      List (Int × Int)).length = 3 := rfl
  rw [hlen, ← rankIdxF_eq_clamp 50 3, rankIdxF_50_3]
  rfl

/-! ## Concrete rank-index evaluations for the three-entry scenario -/

lemma rankIdx_50_3 : rankIdx 50 3 = 0 := by
  unfold rankIdx goInt
  norm_num

lemma rankIdx_90_3 : rankIdx 90 3 = 1 := by
  unfold rankIdx goInt
  norm_num

lemma rankIdx_0_3 : rankIdx 0 3 = 0 := by
  unfold rankIdx goInt
  norm_num

lemma rankIdx_100_3 : rankIdx 100 3 = 2 := by
  unfold rankIdx goInt
  norm_num

/-- A fresh cached store is cache-consistent after the three demo appends
(the flag is down, so the implication holds vacuously). -/
lemma demo_cacheInv :
    CacheInv (Service.new.storeAll [((0:Int), (100:Int)), (1, 200), (2, 150)]) :=
  fun hv => nomatch hv

/-- Evaluation of an in-range query on the cached store holding durations
100, 200, 150: the answer is read off [100, 150, 200] at the rank index. -/
lemma demo_get (p : ℚ) (hp : ¬(p < 0 ∨ p > 100)) :
    ((Service.new.storeAll [((0:Int), (100:Int)), (1, 200), (2, 150)]).getResponseTime
        p).1 =
      .ok (([100, 150, 200] : List Int).getD (rankIdx p 3).toNat 0) := by
  rw [getResponseTime_of_inv _ p demo_cacheInv (by decide) hp]
  rfl

/-- Evaluation of an in-range query on the simple store holding durations
100, 200, 150. -/
lemma simple_demo_get (p : ℚ) (hp : ¬(p < 0 ∨ p > 100)) :
    (((SimpleService.new.storeResponseTime 0 100).storeResponseTime 1
          200).storeResponseTime 2 150).getResponseTime p =
      .ok (([100, 150, 200] : List Int).getD (rankIdx p 3).toNat 0) := by
  rw [simple_getResponseTime_ok _ p (by decide) hp]
  rfl

/-- **C2, counterexample.** The claim asserts that after recording durations
100, 200, 150, `GetResponseTime 50` returns 150 and `GetResponseTime 90`
returns 200; in fact they return 100 and 150 (`idx = int((50/100)*3) - 1 = 0`
and `idx = int((90/100)*3) - 1 = 1` into [100, 150, 200]). -/
theorem C2_scenario_counterexample :
    ¬(((Service.new.storeAll [((0:Int), (100:Int)), (1, 200), (2, 150)]).getResponseTime
          50).1 = .ok 150 ∧
      ((Service.new.storeAll [((0:Int), (100:Int)), (1, 200), (2, 150)]).getResponseTime
          90).1 = .ok 200) := by
  rintro ⟨h50, _⟩
  rw [demo_get 50 (by norm_num), rankIdx_50_3] at h50
  simp at h50

/-- **C2, amended.** After recording durations 100, 200, 150 in that order
into a fresh store (either implementation), `GetResponseTime 50` returns
100, `GetResponseTime 90` returns 150, `GetResponseTime 0` returns 100, and
`GetResponseTime 100` returns 200. -/
theorem C2_scenario_amended :
    (((Service.new.storeAll [((0:Int), (100:Int)), (1, 200), (2, 150)]).getResponseTime
          50).1 = .ok 100 ∧
      ((Service.new.storeAll [((0:Int), (100:Int)), (1, 200), (2, 150)]).getResponseTime
          90).1 = .ok 150 ∧
      ((Service.new.storeAll [((0:Int), (100:Int)), (1, 200), (2, 150)]).getResponseTime
          0).1 = .ok 100 ∧
      ((Service.new.storeAll [((0:Int), (100:Int)), (1, 200), (2, 150)]).getResponseTime
          100).1 = .ok 200) ∧
    ((((SimpleService.new.storeResponseTime 0 100).storeResponseTime 1
          200).storeResponseTime 2 150).getResponseTime 50 = .ok 100 ∧
      (((SimpleService.new.storeResponseTime 0 100).storeResponseTime 1
          200).storeResponseTime 2 150).getResponseTime 90 = .ok 150 ∧
      (((SimpleService.new.storeResponseTime 0 100).storeResponseTime 1
          200).storeResponseTime 2 150).getResponseTime 0 = .ok 100 ∧
      (((SimpleService.new.storeResponseTime 0 100).storeResponseTime 1
          200).storeResponseTime 2 150).getResponseTime 100 = .ok 200) := by
  refine ⟨⟨?_, ?_, ?_, ?_⟩, ?_, ?_, ?_, ?_⟩
  · rw [demo_get 50 (by norm_num), rankIdx_50_3]
    rfl
  · rw [demo_get 90 (by norm_num), rankIdx_90_3]
    rfl
  · rw [demo_get 0 (by norm_num), rankIdx_0_3]
    rfl
  · rw [demo_get 100 (by norm_num), rankIdx_100_3]
    rfl
  · rw [simple_demo_get 50 (by norm_num), rankIdx_50_3]
    rfl
  · rw [simple_demo_get 90 (by norm_num), rankIdx_90_3]
    rfl
  · rw [simple_demo_get 0 (by norm_num), rankIdx_0_3]
    rfl
  · rw [simple_demo_get 100 (by norm_num), rankIdx_100_3]
    rfl

/-- **C3.** `GetResponseTime` on a store whose measurement sequence is empty
fails with the `NoData` error for every percentile `p`, including values of
`p` outside [0, 100]; this holds for both implementations. -/
theorem C3_empty_noData (s : Service) (t : SimpleService) (p : ℚ)
    (hs : s.data = []) (ht : t.data = []) :
    (s.getResponseTime p).1 = .error .noData ∧
      t.getResponseTime p = .error .noData := by
  refine ⟨?_, simple_getResponseTime_empty t p ht⟩
  rw [getResponseTime_empty s p hs]

/-- Witness for C3: the freshly constructed stores, queried at the
out-of-range percentile 150, still fail with `NoData`. -/
theorem C3_empty_noData_witness :
    (Service.new.getResponseTime 150).1 = .error .noData ∧
      SimpleService.new.getResponseTime 150 = .error .noData :=
  C3_empty_noData Service.new SimpleService.new 150 rfl rfl

/-- **C4.** On a store with at least one recorded entry, `GetResponseTime p`
fails with `InvalidPercentile` if and only if `p < 0` or `p > 100` (for both
implementations); the range check runs only after the emptiness check, which
`C3_empty_noData` shows wins on an empty store even for out-of-range `p`. -/
theorem C4_invalidPercentile (s : Service) (t : SimpleService) (p : ℚ)
    (hs : s.data ≠ []) (ht : t.data ≠ []) :
    ((s.getResponseTime p).1 = .error .invalidPercentile ↔
      (p < 0 ∨ p > 100)) ∧
    (t.getResponseTime p = .error .invalidPercentile ↔
      (p < 0 ∨ p > 100)) := by
  constructor
  · constructor
    · intro h
      by_contra hp
      obtain ⟨d, hd⟩ := getResponseTime_isOk s p hs hp
      rw [hd] at h
      cases h
    · intro hp
      rw [getResponseTime_oor s p hs hp]
  · constructor
    · intro h
      by_contra hp
      rw [simple_getResponseTime_ok t p ht hp] at h
      cases h
    · intro hp
      rw [simple_getResponseTime_oor t p ht hp]

/-- Witness for C4: with one 500-duration entry stored, querying percentile
101 fails with `InvalidPercentile` in both implementations. -/
theorem C4_invalidPercentile_witness :
    ((Service.new.storeResponseTime 0 500).getResponseTime 101).1 =
        .error .invalidPercentile ∧
      (SimpleService.new.storeResponseTime 0 500).getResponseTime 101 =
        .error .invalidPercentile := by
  have h := C4_invalidPercentile (Service.new.storeResponseTime 0 500)
    (SimpleService.new.storeResponseTime 0 500) 101 (by decide) (by decide)
  exact ⟨h.1.mpr (by norm_num), h.2.mpr (by norm_num)⟩

/-- **C5.** For a fixed reachable store state (no records between the two
queries) with at least one entry, and percentiles `0 ≤ p1 ≤ p2 ≤ 100`, the
duration returned by `GetResponseTime p1` is less than or equal to the one
returned by `GetResponseTime p2`. -/
theorem C5_percentile_monotone (s : Service) (p1 p2 : ℚ) (hs : Reachable s)
    (hne : s.data ≠ []) (h0 : 0 ≤ p1) (h12 : p1 ≤ p2) (h100 : p2 ≤ 100) :
    ∃ d1 d2, (s.getResponseTime p1).1 = .ok d1 ∧
      (s.getResponseTime p2).1 = .ok d2 ∧ d1 ≤ d2 := by
  have hc := reachable_cacheInv hs
  have hp1 : ¬(p1 < 0 ∨ p1 > 100) := by rintro (h | h) <;> linarith
  have hp2 : ¬(p2 < 0 ∨ p2 > 100) := by rintro (h | h) <;> linarith
  rw [getResponseTime_of_inv s p1 hc hne hp1,
    getResponseTime_of_inv s p2 hc hne hp2]
  refine ⟨_, _, rfl, rfl, ?_⟩
  have hn : s.data.length ≠ 0 := fun h => hne (List.length_eq_zero.mp h)
  have hmono := rankIdx_mono p1 p2 s.data.length h0 h12
  have hlt := rankIdx_lt p2 s.data.length
  have hnn1 := rankIdx_nonneg p1 s.data.length hn
  have hnn2 := rankIdx_nonneg p2 s.data.length hn
  apply getD_mono_of_sorted (sortInt_sorted _)
  · omega
  · rw [sortInt_length, durationsOf_length]
    omega

/-- Witness for C5: one 500-duration entry, `p1 = 0`, `p2 = 100`. -/
theorem C5_percentile_monotone_witness :
    ∃ d1 d2,
      ((Service.new.storeResponseTime 0 500).getResponseTime 0).1 = .ok d1 ∧
      ((Service.new.storeResponseTime 0 500).getResponseTime 100).1 = .ok d2 ∧
      d1 ≤ d2 :=
  C5_percentile_monotone (Service.new.storeResponseTime 0 500) 0 100
    (Reachable.store 0 500 Reachable.init) (by decide) (by norm_num)
    (by norm_num) (by norm_num)

/-- The shape of a successful query, for any state: the answer and the
post-state both come from the optionally rebuilt service. -/
lemma getResponseTime_ok_state (s : Service) (p : ℚ) (hne : s.data ≠ [])
    (hp : ¬(p < 0 ∨ p > 100)) :
    s.getResponseTime p =
      (.ok ((if s.cacheValid then s else s.rebuildCache).sortedCache.getD
          (rankIdx p
            (if s.cacheValid then s
              else s.rebuildCache).sortedCache.length).toNat 0),
        if s.cacheValid then s else s.rebuildCache) := by
  unfold Service.getResponseTime
  rw [if_neg (by simpa using hne), if_neg hp]

/-- **C6.** For every store state and every percentile, two consecutive
`GetResponseTime p` calls with no intervening `StoreResponseTime` return
identical results (the same duration, or the same error). -/
theorem C6_read_idempotent (s : Service) (p : ℚ) :
    ((s.getResponseTime p).2.getResponseTime p).1 = (s.getResponseTime p).1 := by
  by_cases hd : s.data = []
  · have h1 := getResponseTime_empty s p hd
    rw [h1]
    dsimp only
    rw [h1]
  · by_cases hp : p < 0 ∨ p > 100
    · have h1 := getResponseTime_oor s p hd hp
      rw [h1]
      dsimp only
      rw [h1]
    · cases hv : s.cacheValid with
      | true =>
          have h1 := getResponseTime_ok_state s p hd hp
          simp only [hv, if_true] at h1
          rw [h1]
          dsimp only
          rw [h1]
      | false =>
          have h1 := getResponseTime_ok_state s p hd hp
          simp only [hv, Bool.false_eq_true, if_false] at h1
          rw [h1]
          dsimp only
          rw [getResponseTime_of_inv s.rebuildCache p (cacheInv_rebuild s)
            (by simpa [Service.rebuildCache] using hd) hp]
          dsimp only [Service.rebuildCache]
          rw [sortInt_length, durationsOf_length]

/-- **C7.** The dirty-flag state machine: `NewService` starts Fresh with an
empty index; every `StoreResponseTime` moves to Stale; a query that finds
the flag Stale and produces an answer has performed the full rebuild (its
post-state is exactly `rebuildCache`, Fresh) and reads its answer from the
rebuilt index; any query that turns the Stale flag Fresh has set the index
to the sort of the current data; `GetStats` never moves the flag. -/
theorem C7_dirty_flag_machine :
    (Service.new.cacheValid = true ∧ Service.new.sortedCache = []) ∧
    (∀ (s : Service) (ts dur : Int),
      (s.storeResponseTime ts dur).cacheValid = false) ∧
    (∀ (s : Service) (p : ℚ), s.cacheValid = false →
      (s.getResponseTime p).2.cacheValid = true →
      (s.getResponseTime p).2.sortedCache = sortInt (durationsOf s.data)) ∧
    (∀ (s : Service) (p : ℚ) (d : Int), s.cacheValid = false →
      (s.getResponseTime p).1 = .ok d →
      (s.getResponseTime p).2 = s.rebuildCache ∧
      d = s.rebuildCache.sortedCache.getD
        (rankIdx p s.rebuildCache.sortedCache.length).toNat 0) ∧
    (∀ s : Service, s.getStats.2.cacheValid = s.cacheValid) := by
  refine ⟨⟨rfl, rfl⟩, fun s ts dur => rfl, ?_, ?_, fun s => rfl⟩
  · intro s p hv hpost
    by_cases hd : s.data = []
    · rw [getResponseTime_empty s p hd] at hpost
      simp [hv] at hpost
    · by_cases hp : p < 0 ∨ p > 100
      · rw [getResponseTime_oor s p hd hp] at hpost
        simp [hv] at hpost
      · have hc : CacheInv s := fun h => absurd h (by simp [hv])
        rw [getResponseTime_of_inv s p hc hd hp]
  · intro s p d hv hok
    by_cases hd : s.data = []
    · rw [getResponseTime_empty s p hd] at hok
      simp at hok
    · by_cases hp : p < 0 ∨ p > 100
      · rw [getResponseTime_oor s p hd hp] at hok
        simp at hok
      · have hc : CacheInv s := fun h => absurd h (by simp [hv])
        have h1 := getResponseTime_of_inv s p hc hd hp
        rw [h1] at hok
        dsimp only at hok
        simp only [Except.ok.injEq] at hok
        constructor
        · rw [h1]
          rfl
        · show d = (sortInt (durationsOf s.data)).getD
            (rankIdx p (sortInt (durationsOf s.data)).length).toNat 0
          rw [sortInt_length, durationsOf_length]
          exact hok.symm

/-- Evaluation of the rank index of the 50th percentile over one entry. -/
lemma rankIdx_50_1 : rankIdx 50 1 = 0 := by
  unfold rankIdx goInt
  norm_num

/-- Witness for C7: after one store the flag is Stale, and a successful
query flips it back to Fresh by rebuilding. -/
theorem C7_dirty_flag_machine_witness :
    (Service.new.storeResponseTime 0 500).cacheValid = false ∧
    ((Service.new.storeResponseTime 0 500).getResponseTime 50).2 =
      (Service.new.storeResponseTime 0 500).rebuildCache := by
  have hok : ((Service.new.storeResponseTime 0 500).getResponseTime 50).1 =
      .ok 500 := by
    rw [getResponseTime_of_inv _ 50 (fun h => absurd h (by decide)) (by decide)
      (by norm_num)]
    dsimp only
    norm_num [Service.storeResponseTime, Service.new, durationsOf, sortInt,
      List.insertionSort, List.orderedInsert, rankIdx_50_1]
  exact ⟨C7_dirty_flag_machine.2.1 Service.new 0 500,
    (C7_dirty_flag_machine.2.2.2.1 (Service.new.storeResponseTime 0 500) 50
      500 rfl hok).1⟩

/-- **C8.** In every state reachable from `NewService` by sequences of
`StoreResponseTime`, `GetResponseTime`, and `GetStats` calls: whenever the
`cacheValid` flag is set, the sorted index equals the ascending sort of the
durations currently recorded; and every percentile answer is computed from
the sort of the full current data, with `n` the current entry count — never
from an index reflecting fewer entries. -/
theorem C8_cache_invariant (s : Service) (hs : Reachable s) :
    (s.cacheValid = true → s.sortedCache = sortInt (durationsOf s.data)) ∧
    (∀ (p : ℚ) (d : Int), (s.getResponseTime p).1 = .ok d →
      d = (sortInt (durationsOf s.data)).getD
        (rankIdx p s.data.length).toNat 0) := by
  have hc := reachable_cacheInv hs
  refine ⟨hc, ?_⟩
  intro p d hok
  by_cases hd : s.data = []
  · rw [getResponseTime_empty s p hd] at hok
    simp at hok
  · by_cases hp : p < 0 ∨ p > 100
    · rw [getResponseTime_oor s p hd hp] at hok
      simp at hok
    · rw [getResponseTime_of_inv s p hc hd hp] at hok
      dsimp only at hok
      simp only [Except.ok.injEq] at hok
      exact hok.symm

/-- Witness for C8: the reachable state after one store and one query has a
set flag and an index equal to the sort of its data. -/
theorem C8_cache_invariant_witness :
    ((Service.new.storeResponseTime 0 500).getResponseTime 50).2.sortedCache =
      sortInt (durationsOf
        ((Service.new.storeResponseTime 0 500).getResponseTime 50).2.data) := by
  have hvalid :
      ((Service.new.storeResponseTime 0 500).getResponseTime 50).2.cacheValid =
        true := by
    rw [getResponseTime_of_inv _ 50 (fun h => absurd h (by decide)) (by decide)
      (by norm_num)]
  exact (C8_cache_invariant _
    (Reachable.query 50 (Reachable.store 0 500 Reachable.init))).1 hvalid

/-- **C9.** `GetStats` has no side effects — the measurement sequence, the
sorted index, and the dirty flag are unchanged by the call — and it returns
the current measurement count, the current validity flag, and the sorted
index's current length. -/
theorem C9_getStats_pure (s : Service) :
    s.getStats.2.data = s.data ∧
    s.getStats.2.sortedCache = s.sortedCache ∧
    s.getStats.2.cacheValid = s.cacheValid ∧
    s.getStats.1.totalEntries = s.data.length ∧
    s.getStats.1.cacheValid = s.cacheValid ∧
    s.getStats.1.cacheSize = s.sortedCache.length :=
  ⟨rfl, rfl, rfl, rfl, rfl, rfl⟩

/-- A query returns the same client-visible result in both implementations
whenever the cached service's log matches the simple one's and its cache is
consistent. -/
lemma query_agree (s : Service) (t : SimpleService) (hdata : s.data = t.data)
    (hc : CacheInv s) (p : ℚ) :
    (s.getResponseTime p).1 = t.getResponseTime p := by
  by_cases hd : s.data = []
  · rw [getResponseTime_empty s p hd,
      simple_getResponseTime_empty t p (hdata ▸ hd)]
  · have htd : t.data ≠ [] := hdata ▸ hd
    by_cases hp : p < 0 ∨ p > 100
    · rw [getResponseTime_oor s p hd hp,
        simple_getResponseTime_oor t p htd hp]
    · rw [getResponseTime_of_inv s p hc hd hp,
        simple_getResponseTime_ok t p htd hp, hdata]

/-- Traces of the two implementations agree from any pair of related
states. -/
lemma runTrace_agree : ∀ (ops : List Op) (s : Service) (t : SimpleService),
    s.data = t.data → CacheInv s → s.runTrace ops = t.runTrace ops
  | [], _, _, _, _ => rfl
  | .store ts dur :: ops, s, t, hdata, _ => by
      show none :: _ = none :: _
      exact congrArg (List.cons none)
        (runTrace_agree ops (s.storeResponseTime ts dur)
          (t.storeResponseTime ts dur)
          (by simp [Service.storeResponseTime,
            SimpleService.storeResponseTime, hdata])
          (cacheInv_store s ts dur))
  | .query p :: ops, s, t, hdata, hc => by
      show some (s.getResponseTime p).1 :: _ = some (t.getResponseTime p) :: _
      rw [query_agree s t hdata hc p]
      exact congrArg (List.cons (some (t.getResponseTime p)))
        (runTrace_agree ops (s.getResponseTime p).2 t
          (by rw [getResponseTime_data]; exact hdata)
          (cacheInv_get s p hc))

/-- **C10.** The two implementations are observationally equivalent in
sequential use: for every sequence of `StoreResponseTime` and
`GetResponseTime` calls applied to both services from their `NewService`
states, each `GetResponseTime` returns the same duration-or-error in
both. -/
theorem C10_observational_equivalence (ops : List Op) :
    Service.new.runTrace ops = SimpleService.new.runTrace ops :=
  runTrace_agree ops Service.new SimpleService.new rfl cacheInv_new

end InMemoryService
